import Mathlib

/-!
Verification development for the task_tracker application.

The Rust sources are embedded shallowly:
* `Task`, `Status`, `TaskView`, `Field`, `State` and the per-task message
  dispatch come from `src/task.rs`;
* `TaskTracker`, `Query` and the collection operations come from
  `src/task_tracker.rs`;
* the application-level message dispatch and the filter evaluator come from
  `src/main.rs`;
* file persistence (`write_tasks` in `src/utils.rs`) is modelled by an
  explicit `storage` component carried next to the tracker.

Machine-generated identifiers (`Uuid::new_v4`) and clock reads
(`Local::now().naive_local()`) are nondeterministic inputs; they are passed
to the embedded operations as explicit `Nat` parameters.  The text of an
iced `text_editor::Content` widget is modelled by the `String` it holds, and
an editing `Action` by the resulting text, since the widget internals are an
external toolkit concern.
-/

namespace TaskTrackerApp

/-- Status of a task (`Status` in `src/task.rs`), serde-renamed to
kebab-case on (de)serialization. -/
inductive Status where
  | Done
  | InProgress
  | ToDo
deriving DecidableEq

/-- A stored task (`Task` in `src/task.rs`).  `Uuid` is modelled by `Nat`,
`NaiveDateTime` by `Nat`. -/
structure Task where
  id : Nat
  title : String
  description : String
  status : Status
  created_at : Nat
  modified_at : Nat
deriving DecidableEq

/-- `Task::new`: fresh id and clock reading are explicit parameters. -/
def Task.new (id now : Nat) (title description : String) : Task :=
  { id := id
    title := title
    description := description
    status := Status.ToDo
    created_at := now
    modified_at := now }

/-- `Task::set_title`. -/
def Task.set_title (t : Task) (title : String) : Task :=
  { t with title := title }

/-- `Task::set_description`. -/
def Task.set_description (t : Task) (description : String) : Task :=
  { t with description := description }

/-- `Task::set_status`. -/
def Task.set_status (t : Task) (status : Status) : Task :=
  { t with status := status }

/-- `Task::modified`: stamp `modified_at` with the current clock value. -/
def Task.modified (t : Task) (now : Nat) : Task :=
  { t with modified_at := now }

/-- `Task::modify`: apply each present field, then unconditionally stamp
`modified_at` with the current clock value. -/
def Task.modify (t : Task) (now : Nat)
    (title description : Option String) (status : Option Status) : Task :=
  let t1 := match title with
    | some x => { t with title := x }
    | none => t
  let t2 := match description with
    | some x => { t1 with description := x }
    | none => t1
  let t3 := match status with
    | some x => { t2 with status := x }
    | none => t2
  { t3 with modified_at := now }

/-- Draft fields of a task view (`Field` in `src/task.rs`).  The
`combo_box::State` widget state carries only the constant option list and is
not part of the edit semantics; `text_editor::Content` is modelled by its
text. -/
structure Field where
  title : String
  status : Status
  text_editor_content : String
deriving DecidableEq

/-- View/edit mode of a task view (`State` in `src/task.rs`). -/
inductive State where
  | Static
  | Edit
deriving DecidableEq

/-- Per-task view state (`TaskView` in `src/task.rs`). -/
structure TaskView where
  task : Task
  state : State
  fields : Field
deriving DecidableEq

/-- Rust `str::trim`: drop leading and trailing whitespace.  Rust trims by
`char::is_whitespace`; the embedding uses `Char.isWhitespace`, which agrees
on the ASCII whitespace the application manipulates. -/
def strTrim (s : String) : String :=
  String.mk (((s.data.dropWhile Char.isWhitespace).reverse.dropWhile
    Char.isWhitespace).reverse)

/-- Rust `str::is_empty`. -/
def strIsEmpty (s : String) : Bool :=
  s.data.isEmpty

/-- Per-task messages (`Message` in `src/task.rs`).  `SetDescription`
carries the text the editor holds after performing the action. -/
inductive TaskMsg where
  | Modify (title description : Option String) (status : Option Status)
  | SetTitle (s : String)
  | SetDescription (s : String)
  | SetStatus (s : Status)
  | ToggleState
  | Update
  | Delete (id : Nat)
deriving DecidableEq

/-- `TaskView::update`: the returned `iced::Task` chain is modelled by the
list of messages it will deliver, in order.  `Message::Modify` edits the
canonical task and chains `ToggleState` then `Update`; `Update` and
`Delete` are handled by the surrounding application and are local no-ops. -/
def TaskView.update (tv : TaskView) (now : Nat) (m : TaskMsg) :
    TaskView × List TaskMsg :=
  match m with
  | TaskMsg.Modify title description status =>
      ({ tv with task := tv.task.modify now title description status },
        [TaskMsg.ToggleState, TaskMsg.Update])
  | TaskMsg.SetTitle s =>
      ({ tv with fields := { tv.fields with title := s } }, [])
  | TaskMsg.SetDescription s =>
      ({ tv with fields := { tv.fields with text_editor_content := s } }, [])
  | TaskMsg.SetStatus s =>
      ({ tv with fields := { tv.fields with status := s } }, [])
  | TaskMsg.ToggleState =>
      (match tv.state with
        | State.Edit => { tv with state := State.Static }
        | State.Static => { tv with state := State.Edit }, [])
  | TaskMsg.Update => (tv, [])
  | TaskMsg.Delete _ => (tv, [])

/-- The message built by the accept button of `TaskView::edit_view`: a
`Modify` holding, for each of title/description/status, `some` draft value
exactly when the diff test of the closure passes. -/
def TaskView.acceptMessage (tv : TaskView) : TaskMsg :=
  let title := if !strIsEmpty tv.fields.title && tv.fields.title != tv.task.title
    then some tv.fields.title else none
  let description :=
    if strTrim tv.fields.text_editor_content != tv.task.description
    then some (strTrim tv.fields.text_editor_content) else none
  let status := if tv.fields.status != tv.task.status
    then some tv.fields.status else none
  TaskMsg.Modify title description status

/-- Fuel-indexed driver delivering a queue of per-task messages to a single
view, enqueueing every chained message behind the pending ones. -/
def TaskView.runLocal : Nat → Nat → TaskView → List TaskMsg → TaskView
  | 0, _, tv, _ => tv
  | _, _, tv, [] => tv
  | fuel + 1, now, tv, m :: rest =>
      let r := tv.update now m
      TaskView.runLocal fuel now r.1 (rest ++ r.2)

/-- Pressing the accept button while editing: the diff message is built and
dispatched, and the chained `ToggleState` (and locally inert `Update`) are
delivered in turn. -/
def TaskView.acceptEdit (tv : TaskView) (now : Nat) : TaskView :=
  TaskView.runLocal 3 now tv [tv.acceptMessage]

/-- `impl From<&Task> for TaskView`: a fresh view starts `Static` with
draft fields copied from the canonical task. -/
def TaskView.fromTask (task : Task) : TaskView :=
  { state := State.Static
    fields :=
      { title := task.title
        status := task.status
        text_editor_content := task.description }
    task := task }

/-- Filter state (`Query` in `src/task_tracker.rs`). -/
structure Query where
  text : String
  status : Option Status
deriving DecidableEq

/-- The application model (`TaskTracker` in `src/task_tracker.rs`): the
task views plus the create-form inputs and the filter. -/
structure TaskTracker where
  tasks : List TaskView
  title : String
  description : String
  filter : Query
deriving DecidableEq

/-- `TaskTracker::get_tasks`. -/
def TaskTracker.get_tasks (tr : TaskTracker) : List Task :=
  tr.tasks.map (fun tv => tv.task)

/-- A persisted record in `tasks.json`: field-for-field serde output of
`Task`.  `Uuid` and `NaiveDateTime` are serialized by their own crates and
round-trip verbatim, so they stay `Nat` here; `status` becomes its
kebab-case string. -/
structure TaskRecord where
  id : Nat
  title : String
  description : String
  status : String
  created_at : Nat
  modified_at : Nat
deriving DecidableEq

/-- Kebab-case serde rendering of `Status`. -/
def Status.serialize : Status → String
  | Status.Done => "done"
  | Status.InProgress => "in-progress"
  | Status.ToDo => "to-do"

/-- Kebab-case serde parsing of `Status`; unknown strings are a parse
error. -/
def Status.deserialize (s : String) : Option Status :=
  if s = "done" then some Status.Done
  else if s = "in-progress" then some Status.InProgress
  else if s = "to-do" then some Status.ToDo
  else none

/-- Serde serialization of one task. -/
def Task.serialize (t : Task) : TaskRecord :=
  { id := t.id
    title := t.title
    description := t.description
    status := t.status.serialize
    created_at := t.created_at
    modified_at := t.modified_at }

/-- Serde parsing of one persisted record. -/
def TaskRecord.deserialize (r : TaskRecord) : Option Task :=
  match Status.deserialize r.status with
  | some st =>
      some { id := r.id
             title := r.title
             description := r.description
             status := st
             created_at := r.created_at
             modified_at := r.modified_at }
  | none => none

/-- Serialization of a whole collection, as written by `write_tasks`. -/
def serializeTasks (ts : List Task) : List TaskRecord :=
  ts.map Task.serialize

/-- The tracker together with the contents of `tasks.json`
(`write_tasks` overwrites the file wholesale). -/
structure AppState where
  tracker : TaskTracker
  storage : List TaskRecord
deriving DecidableEq

/-- `write_tasks(self.get_tasks())`: overwrite storage with the
serialization of the current collection. -/
def writeTasks (s : AppState) : AppState :=
  { s with storage := serializeTasks s.tracker.get_tasks }

/-- `TaskTracker::add_task`: append a new task view, then persist. -/
def addTask (s : AppState) (id now : Nat) (title description : String) :
    AppState :=
  writeTasks
    { s with tracker :=
        { s.tracker with tasks :=
            s.tracker.tasks ++ [TaskView.fromTask (Task.new id now title description)] } }

/-- `TaskTracker::remove_task`: retain the views whose task id differs,
then persist. -/
def removeTask (s : AppState) (id : Nat) : AppState :=
  writeTasks
    { s with tracker :=
        { s.tracker with tasks :=
            s.tracker.tasks.filter (fun tv => tv.task.id != id) } }

/-- `get_task_mut` followed by in-place mutation: rewrite the first view
whose task id matches. -/
def updateFirst (id : Nat) (f : Task → Task) : List TaskView → List TaskView
  | [] => []
  | tv :: rest =>
      if tv.task.id == id then { tv with task := f tv.task } :: rest
      else tv :: updateFirst id f rest

/-- `TaskTracker::update_task`: if a task with the id exists, apply the
present fields through the single-field setters, touch `modified_at`, and
persist; otherwise do nothing. -/
def updateTask (s : AppState) (id now : Nat)
    (title description : Option String) (status : Option Status) : AppState :=
  if s.tracker.tasks.any (fun tv => tv.task.id == id) then
    let f := fun (t : Task) =>
      let t1 := match title with
        | some x => t.set_title x
        | none => t
      let t2 := match description with
        | some x => t1.set_description x
        | none => t1
      let t3 := match status with
        | some x => t2.set_status x
        | none => t2
      t3.modified now
    writeTasks
      { s with tracker :=
          { s.tracker with tasks := updateFirst id f s.tracker.tasks } }
  else s

/-- Application-level messages (`Message` in `src/task_tracker.rs`). -/
inductive TrackerMsg where
  | Delete (id : Nat)
  | SetTitle (s : String)
  | SetDescription (s : String)
  | SetQueryText (s : String)
  | SetQueryStatus (s : Option Status)
  | Create (title description : String)
  | TaskMessage (id : Nat) (m : TaskMsg)
  | FocusNext
  | FocusPrev
deriving DecidableEq

/-- Deliver one per-task message to the first view with the given id, as
`self.tasks.iter_mut().find(...)` does; returns the updated list and the
messages chained by the view (empty when no view matches). -/
def dispatchLocal (id now : Nat) (m : TaskMsg) :
    List TaskView → List TaskView × List TaskMsg
  | [] => ([], [])
  | tv :: rest =>
      if tv.task.id == id then
        let r := tv.update now m
        (r.1 :: rest, r.2)
      else
        let r := dispatchLocal id now m rest
        (tv :: r.1, r.2)

/-- One step of `TaskTracker::update` in `src/main.rs`.  `newId` is the
`Uuid` a `Create` would draw, `now` the clock reading; the returned list
holds the messages the produced `iced::Task` will deliver.  Focus moves
only affect widgets and are no-ops on the model. -/
def globalStep (s : AppState) (newId now : Nat) (m : TrackerMsg) :
    AppState × List TrackerMsg :=
  match m with
  | TrackerMsg.FocusNext => (s, [])
  | TrackerMsg.FocusPrev => (s, [])
  | TrackerMsg.Delete id => (removeTask s id, [])
  | TrackerMsg.SetDescription d =>
      ({ s with tracker := { s.tracker with description := d } }, [])
  | TrackerMsg.SetTitle t =>
      ({ s with tracker := { s.tracker with title := t } }, [])
  | TrackerMsg.SetQueryText t =>
      ({ s with tracker :=
          { s.tracker with filter := { s.tracker.filter with text := t } } }, [])
  | TrackerMsg.SetQueryStatus st =>
      ({ s with tracker :=
          { s.tracker with filter := { s.tracker.filter with status := st } } }, [])
  | TrackerMsg.Create title description =>
      if strIsEmpty (strTrim title) || strIsEmpty (strTrim description) then (s, [])
      else
        let s1 := addTask s newId now title description
        ({ s1 with tracker :=
            { s1.tracker with title := "", description := "" } }, [])
  | TrackerMsg.TaskMessage id tm =>
      match tm with
      | TaskMsg.Delete did => (removeTask s did, [])
      | TaskMsg.Update => (writeTasks s, [])
      | tm1 =>
          let r := dispatchLocal id now tm1 s.tracker.tasks
          ({ s with tracker := { s.tracker with tasks := r.1 } },
            r.2.map (TrackerMsg.TaskMessage id))

/-- Fuel-indexed driver delivering a queue of application messages,
enqueueing chained messages behind the pending ones. -/
def runGlobal : Nat → Nat → Nat → AppState → List TrackerMsg → AppState
  | 0, _, _, s, _ => s
  | _, _, _, s, [] => s
  | fuel + 1, newId, now, s, m :: rest =>
      let r := globalStep s newId now m
      runGlobal fuel newId now r.1 (rest ++ r.2)

/-- Rust `str::contains` on the character lists: does the second list occur
contiguously inside the first? -/
def containsSub (pat : List Char) : List Char → Bool
  | [] => pat.isEmpty
  | c :: rest => pat.isPrefixOf (c :: rest) || containsSub pat rest

/-- Rust `hay.contains(pat)`: case-sensitive substring test. -/
def strContains (hay pat : String) : Bool :=
  containsSub pat.toList hay.toList

/-- `TaskTracker::filtered_tasks` in `src/main.rs`, with each produced UI
element identified by the task it renders: restrict to the status bucket
when one is selected (`by_status`), then retain the tasks whose title or
description contains the query text. -/
def filteredTasks (tr : TaskTracker) : List Task :=
  let query := tr.filter.text
  match tr.filter.status with
  | some status =>
      (((tr.tasks.filter (fun tv => tv.task.status == status)).filter
        (fun tv => strContains tv.task.title query
          || strContains tv.task.description query)).map (fun tv => tv.task))
  | none =>
      ((tr.tasks.filter
        (fun tv => strContains tv.task.title query
          || strContains tv.task.description query)).map (fun tv => tv.task))

/-- Single-task operations reachable after creation, for stating the
timestamp invariant.  Each clock-reading operation carries the value the
clock returns. -/
inductive TaskOp where
  | opModify (now : Nat) (title description : Option String) (status : Option Status)
  | opSetTitle (s : String)
  | opSetDescription (s : String)
  | opSetStatus (st : Status)
  | opTouch (now : Nat)
deriving DecidableEq

/-- Apply one operation to a task. -/
def Task.applyOp (t : Task) : TaskOp → Task
  | TaskOp.opModify now a b c => t.modify now a b c
  | TaskOp.opSetTitle s => t.set_title s
  | TaskOp.opSetDescription s => t.set_description s
  | TaskOp.opSetStatus st => t.set_status st
  | TaskOp.opTouch now => t.modified now

/-- Apply a sequence of operations in order. -/
def runOps (t : Task) (ops : List TaskOp) : Task :=
  ops.foldl Task.applyOp t

/-- The clock value an operation reads, if it reads one. -/
def TaskOp.time : TaskOp → Option Nat
  | TaskOp.opModify now _ _ _ => some now
  | TaskOp.opTouch now => some now
  | _ => none

/-- The clock readings in an operation sequence are non-decreasing,
starting from `base`. -/
def clockMono (base : Nat) : List TaskOp → Bool
  | [] => true
  | op :: rest =>
      match op.time with
      | some n => base ≤ n && clockMono n rest
      | none => clockMono base rest

/-! Helper lemmas and shared example states. -/

/-- Field-by-field characterization of `Task::modify`. -/
theorem Task.modify_proj (t : Task) (now : Nat)
    (a b : Option String) (c : Option Status) :
    (t.modify now a b c).title = a.getD t.title
    ∧ (t.modify now a b c).description = b.getD t.description
    ∧ (t.modify now a b c).status = c.getD t.status
    ∧ (t.modify now a b c).id = t.id
    ∧ (t.modify now a b c).created_at = t.created_at
    ∧ (t.modify now a b c).modified_at = now := by
  cases a <;> cases b <;> cases c <;> simp [Task.modify]

/-- Concrete example state shared by the witnesses below. -/
def exTask (id : Nat) (st : Status) (title description : String) : Task :=
  { id := id
    title := title
    description := description
    status := st
    created_at := 0
    modified_at := 0 }

/-- A tracker holding the three tasks of the filter-composition example. -/
def exTracker (q : String) (st : Option Status) : TaskTracker :=
  { tasks :=
      [TaskView.fromTask (exTask 1 Status.ToDo "Buy milk" "d1"),
        TaskView.fromTask (exTask 2 Status.Done "Buy milk" "d2"),
        TaskView.fromTask (exTask 3 Status.ToDo "Clean" "d3")]
    title := ""
    description := ""
    filter := { text := q, status := st } }

/-- The example tracker together with an in-sync storage file. -/
def exState : AppState :=
  writeTasks { tracker := exTracker "" none, storage := [] }

/-! Claim theorems and their witnesses. -/

/-- Claim C5: `modify` applies each present field, leaves absent fields
untouched, and sets `modified_at` to the current clock value
unconditionally, so whenever the clock has not gone backwards the new
`modified_at` is at least the old one. -/
theorem modify_semantics (t : Task) (now : Nat)
    (a b : Option String) (c : Option Status)
    (h : t.modified_at ≤ now) :
    (t.modify now a b c).title = a.getD t.title
    ∧ (t.modify now a b c).description = b.getD t.description
    ∧ (t.modify now a b c).status = c.getD t.status
    ∧ (t.modify now a b c).id = t.id
    ∧ (t.modify now a b c).created_at = t.created_at
    ∧ (t.modify now a b c).modified_at = now
    ∧ t.modified_at ≤ (t.modify now a b c).modified_at := by
  obtain ⟨h1, h2, h3, h4, h5, h6⟩ := Task.modify_proj t now a b c
  exact ⟨h1, h2, h3, h4, h5, h6, h6 ▸ h⟩

/-- Witness for C5 at the all-fields-absent call the claim singles out. -/
theorem modify_semantics_witness :
    (exTask 1 Status.ToDo "a" "b").modified_at ≤ 7
    ∧ ((exTask 1 Status.ToDo "a" "b").modify 7 none none none).title = "a"
    ∧ ((exTask 1 Status.ToDo "a" "b").modify 7 none none none).modified_at = 7
    ∧ (exTask 1 Status.ToDo "a" "b").modified_at
        ≤ ((exTask 1 Status.ToDo "a" "b").modify 7 none none none).modified_at := by
  have h := modify_semantics (exTask 1 Status.ToDo "a" "b") 7 none none none
    (by decide)
  exact ⟨by decide, h.1, h.2.2.2.2.2.1, h.2.2.2.2.2.2⟩

/-- Claim C8: serializing a task to the persisted record format and parsing
it back yields an equal task, and the status serializes to one of "done",
"in-progress", "to-do". -/
theorem task_round_trip (t : Task) :
    TaskRecord.deserialize (Task.serialize t) = some t
    ∧ ((Task.serialize t).status = "done"
      ∨ (Task.serialize t).status = "in-progress"
      ∨ (Task.serialize t).status = "to-do") := by
  cases t with
  | mk id title description status ca ma =>
      cases status with
      | Done => exact ⟨rfl, Or.inl rfl⟩
      | InProgress => exact ⟨rfl, Or.inr (Or.inl rfl)⟩
      | ToDo => exact ⟨rfl, Or.inr (Or.inr rfl)⟩

/-- Claim C2: a create request whose title or description trims to the
empty string is a silent no-op, leaving the whole state (collection
included) unchanged and chaining no further message. -/
theorem create_rejects_blank (s : AppState) (newId now : Nat)
    (title description : String)
    (h : strIsEmpty (strTrim title) = true ∨ strIsEmpty (strTrim description) = true) :
    globalStep s newId now (TrackerMsg.Create title description) = (s, []) := by
  have hcond : (strIsEmpty (strTrim title) || strIsEmpty (strTrim description)) = true := by
    rcases h with h | h <;> simp [h]
  simp [globalStep, hcond]

/-- Witness for C2 at the three blank-input examples of the claim. -/
theorem create_rejects_blank_witness :
    strIsEmpty (strTrim "") = true
    ∧ globalStep exState 9 9 (TrackerMsg.Create "" "x") = (exState, [])
    ∧ globalStep exState 9 9 (TrackerMsg.Create "x" "") = (exState, [])
    ∧ globalStep exState 9 9 (TrackerMsg.Create "  " "  ") = (exState, []) :=
  ⟨by decide,
    create_rejects_blank exState 9 9 "" "x" (Or.inl (by decide)),
    create_rejects_blank exState 9 9 "x" "" (Or.inr (by decide)),
    create_rejects_blank exState 9 9 "  " "  " (Or.inl (by decide))⟩

/-- Claim C7: deleting or updating an id that no task carries leaves the
collection untouched: `remove_task` retains every view and `update_task`
does nothing at all (no field write, no timestamp touch, no persistence). -/
theorem lookup_miss_noop (s : AppState) (id now : Nat)
    (a b : Option String) (c : Option Status)
    (h : (s.tracker.tasks.any fun tv => tv.task.id == id) = false) :
    (removeTask s id).tracker = s.tracker
    ∧ updateTask s id now a b c = s := by
  constructor
  · have hall := List.any_eq_false.mp h
    have hfilter : s.tracker.tasks.filter (fun tv => tv.task.id != id)
        = s.tracker.tasks := by
      apply List.filter_eq_self.mpr
      intro tv htv
      have hne := hall tv htv
      simp only [bne]
      simp at hne
      simp [hne]
    simp [removeTask, writeTasks, hfilter]
  · simp [updateTask, h]

/-- Witness for C7: id 99 is absent from the example collection. -/
theorem lookup_miss_noop_witness :
    ((exState.tracker.tasks.any fun tv => tv.task.id == 99) = false)
    ∧ (removeTask exState 99).tracker = exState.tracker
    ∧ updateTask exState 99 7 (some "t") none none = exState := by
  have h := lookup_miss_noop exState 99 7 (some "t") none none (by decide)
  exact ⟨by decide, h.1, h.2⟩

/-- Pressing accept dispatches the diff `Modify` built by `edit_view`, then
the chained `ToggleState`; the drafts themselves are never rewritten. -/
theorem acceptEdit_eq (tv : TaskView) (now : Nat) :
    tv.acceptEdit now =
      { task := tv.task.modify now
          (if !strIsEmpty tv.fields.title && tv.fields.title != tv.task.title
            then some tv.fields.title else none)
          (if strTrim tv.fields.text_editor_content != tv.task.description
            then some (strTrim tv.fields.text_editor_content) else none)
          (if tv.fields.status != tv.task.status
            then some tv.fields.status else none)
        state := match tv.state with
          | State.Edit => State.Static
          | State.Static => State.Edit
        fields := tv.fields } := by
  cases tv with
  | mk task st fields => cases st <;> rfl

/-- Claim C1: accepting an edit includes each field in the update exactly
under the diff test of `edit_view` — the title only when the draft is
non-empty and differs, the description only when the trimmed draft differs,
the status only when it differs — and the resulting task carries exactly
the included values, the view returning to `Static`. -/
theorem accept_edit_diff_semantics (tv : TaskView) (now : Nat)
    (h : tv.state = State.Edit) :
    ((tv.acceptEdit now).task.title =
        if !strIsEmpty tv.fields.title && tv.fields.title != tv.task.title
        then tv.fields.title else tv.task.title)
    ∧ ((tv.acceptEdit now).task.description =
        if strTrim tv.fields.text_editor_content != tv.task.description
        then strTrim tv.fields.text_editor_content else tv.task.description)
    ∧ ((tv.acceptEdit now).task.status =
        if tv.fields.status != tv.task.status
        then tv.fields.status else tv.task.status)
    ∧ (tv.acceptEdit now).task.id = tv.task.id
    ∧ (tv.acceptEdit now).task.created_at = tv.task.created_at
    ∧ (tv.acceptEdit now).state = State.Static := by
  obtain ⟨h1, h2, h3, h4, h5, _⟩ := Task.modify_proj tv.task now
    (if !strIsEmpty tv.fields.title && tv.fields.title != tv.task.title
      then some tv.fields.title else none)
    (if strTrim tv.fields.text_editor_content != tv.task.description
      then some (strTrim tv.fields.text_editor_content) else none)
    (if tv.fields.status != tv.task.status
      then some tv.fields.status else none)
  rw [acceptEdit_eq tv now]
  refine ⟨?_, ?_, ?_, h4, h5, by rw [h]⟩
  · rw [h1]
    by_cases hc : (!strIsEmpty tv.fields.title && tv.fields.title != tv.task.title) = true
      <;> simp [hc]
  · rw [h2]
    by_cases hc : (strTrim tv.fields.text_editor_content != tv.task.description) = true
      <;> simp [hc]
  · rw [h3]
    by_cases hc : (tv.fields.status != tv.task.status) = true <;> simp [hc]

/-- Witness for C1 at the example given by the claim: title "X", description "Y",
status ToDo, empty title draft, description draft "Z". -/
theorem accept_edit_diff_semantics_witness :
    ({ task := exTask 1 Status.ToDo "X" "Y"
       state := State.Edit
       fields := { title := "", status := Status.ToDo, text_editor_content := "Z" }
       : TaskView }.acceptEdit 5).task.title = "X"
    ∧ ({ task := exTask 1 Status.ToDo "X" "Y"
         state := State.Edit
         fields := { title := "", status := Status.ToDo, text_editor_content := "Z" }
         : TaskView }.acceptEdit 5).task.description = "Z"
    ∧ ({ task := exTask 1 Status.ToDo "X" "Y"
         state := State.Edit
         fields := { title := "", status := Status.ToDo, text_editor_content := "Z" }
         : TaskView }.acceptEdit 5).task.status = Status.ToDo
    ∧ ({ task := exTask 1 Status.ToDo "X" "Y"
         state := State.Edit
         fields := { title := "", status := Status.ToDo, text_editor_content := "Z" }
         : TaskView }.acceptEdit 5).state = State.Static := by
  have h := accept_edit_diff_semantics
    { task := exTask 1 Status.ToDo "X" "Y"
      state := State.Edit
      fields := { title := "", status := Status.ToDo, text_editor_content := "Z" } }
    5 rfl
  exact ⟨h.1.trans (by decide), h.2.1.trans (by decide), h.2.2.1.trans (by decide),
    h.2.2.2.2.2⟩

/-- Counterexample to claim C3: from a fresh view of Task("X","Y",ToDo),
begin edit, set the title draft to "W", cancel, and begin edit again: the
view is in `Edit` state but its title draft is the abandoned "W", not the
canonical "X" — cancel does not discard drafts and begin-edit does not
re-initialize them. -/
theorem cancel_reset_counterexample :
    (TaskView.runLocal 10 0 (TaskView.fromTask (exTask 1 Status.ToDo "X" "Y"))
        [TaskMsg.ToggleState, TaskMsg.SetTitle "W", TaskMsg.ToggleState,
          TaskMsg.ToggleState]).state = State.Edit
    ∧ (TaskView.runLocal 10 0 (TaskView.fromTask (exTask 1 Status.ToDo "X" "Y"))
        [TaskMsg.ToggleState, TaskMsg.SetTitle "W", TaskMsg.ToggleState,
          TaskMsg.ToggleState]).task = exTask 1 Status.ToDo "X" "Y"
    ∧ ¬ (TaskView.runLocal 10 0 (TaskView.fromTask (exTask 1 Status.ToDo "X" "Y"))
        [TaskMsg.ToggleState, TaskMsg.SetTitle "W", TaskMsg.ToggleState,
          TaskMsg.ToggleState]).fields.title
        = (TaskView.runLocal 10 0 (TaskView.fromTask (exTask 1 Status.ToDo "X" "Y"))
            [TaskMsg.ToggleState, TaskMsg.SetTitle "W", TaskMsg.ToggleState,
              TaskMsg.ToggleState]).task.title := by
  refine ⟨rfl, rfl, ?_⟩
  decide

/-- Claim C3 as amended: cancel flips `Edit` to `Static` without mutating
the canonical task, but the draft fields are retained, not discarded;
begin-edit likewise leaves the drafts as they were, and drafts equal the
canonical values only when the view is first built from a task. -/
theorem cancel_keeps_drafts (tv : TaskView) (now : Nat)
    (h : tv.state = State.Edit) :
    ((tv.update now TaskMsg.ToggleState).1.task = tv.task
      ∧ (tv.update now TaskMsg.ToggleState).1.fields = tv.fields
      ∧ (tv.update now TaskMsg.ToggleState).1.state = State.Static)
    ∧ (∀ tw : TaskView, tw.state = State.Static →
        (tw.update now TaskMsg.ToggleState).1.task = tw.task
        ∧ (tw.update now TaskMsg.ToggleState).1.fields = tw.fields
        ∧ (tw.update now TaskMsg.ToggleState).1.state = State.Edit)
    ∧ (∀ t : Task,
        (TaskView.fromTask t).fields.title = t.title
        ∧ (TaskView.fromTask t).fields.text_editor_content = t.description
        ∧ (TaskView.fromTask t).fields.status = t.status) := by
  refine ⟨?_, ?_, ?_⟩
  · simp [TaskView.update, h]
  · intro tw hw
    simp [TaskView.update, hw]
  · intro t
    exact ⟨rfl, rfl, rfl⟩

/-- Witness for the amended C3 on a concrete editing view. -/
theorem cancel_keeps_drafts_witness :
    ({ task := exTask 1 Status.ToDo "X" "Y"
       state := State.Edit
       fields := { title := "W", status := Status.Done, text_editor_content := "D" }
       : TaskView }.update 3 TaskMsg.ToggleState).1.fields
      = { title := "W", status := Status.Done, text_editor_content := "D" }
    ∧ ({ task := exTask 1 Status.ToDo "X" "Y"
         state := State.Edit
         fields := { title := "W", status := Status.Done, text_editor_content := "D" }
         : TaskView }.update 3 TaskMsg.ToggleState).1.task
        = exTask 1 Status.ToDo "X" "Y"
    ∧ ({ task := exTask 1 Status.ToDo "X" "Y"
         state := State.Edit
         fields := { title := "W", status := Status.Done, text_editor_content := "D" }
         : TaskView }.update 3 TaskMsg.ToggleState).1.state = State.Static := by
  have h := cancel_keeps_drafts
    { task := exTask 1 Status.ToDo "X" "Y"
      state := State.Edit
      fields := { title := "W", status := Status.Done, text_editor_content := "D" } }
    3 rfl
  exact ⟨h.1.2.1, h.1.1, h.1.2.2⟩

/-- Claim C10: non-blank validation happens only at creation and titles are
stored verbatim — a validated create request stores its title untrimmed,
and the accept-edit title test is only "non-empty and different", so a
whitespace-only draft title that differs from the canonical title is
committed as-is, leaving a whitespace-only stored title. -/
theorem title_stored_verbatim :
    (∀ (s : AppState) (newId now : Nat) (title description : String),
      strIsEmpty (strTrim title) = false → strIsEmpty (strTrim description) = false →
        (globalStep s newId now (TrackerMsg.Create title description)).1.tracker.tasks
          = s.tracker.tasks ++ [TaskView.fromTask (Task.new newId now title description)]
        ∧ (Task.new newId now title description).title = title)
    ∧ (∀ (tv : TaskView) (now : Nat),
        strIsEmpty tv.fields.title = false → tv.fields.title ≠ tv.task.title →
          (tv.acceptEdit now).task.title = tv.fields.title) := by
  constructor
  · intro s newId now title description h1 h2
    constructor
    · simp [globalStep, h1, h2, addTask, writeTasks]
    · rfl
  · intro tv now h1 h2
    have hbeq : (tv.fields.title == tv.task.title) = false := by
      simp [h2]
    have hcond : (!strIsEmpty tv.fields.title && tv.fields.title != tv.task.title)
        = true := by
      simp [h1, bne, hbeq]
    rw [acceptEdit_eq tv now]
    have := (Task.modify_proj tv.task now
      (if !strIsEmpty tv.fields.title && tv.fields.title != tv.task.title
        then some tv.fields.title else none)
      (if strTrim tv.fields.text_editor_content != tv.task.description
        then some (strTrim tv.fields.text_editor_content) else none)
      (if tv.fields.status != tv.task.status
        then some tv.fields.status else none)).1
    rw [this, hcond]
    rfl

/-- Witness for C10: creating with title " x " stores " x " verbatim, and
accepting a draft title of three spaces over canonical title "X" commits a
whitespace-only title. -/
theorem title_stored_verbatim_witness :
    strIsEmpty (strTrim " x ") = false
    ∧ (globalStep exState 9 9 (TrackerMsg.Create " x " "y")).1.tracker.tasks
        = exState.tracker.tasks ++ [TaskView.fromTask (Task.new 9 9 " x " "y")]
    ∧ (Task.new 9 9 " x " "y").title = " x "
    ∧ ({ task := exTask 1 Status.ToDo "X" "Y"
         state := State.Edit
         fields := { title := "   ", status := Status.ToDo, text_editor_content := "Y" }
         : TaskView }.acceptEdit 5).task.title = "   "
    ∧ strIsEmpty (strTrim "   ") = true := by
  have hc := title_stored_verbatim.1 exState 9 9 " x " "y" (by decide) (by decide)
  have ha := title_stored_verbatim.2
    { task := exTask 1 Status.ToDo "X" "Y"
      state := State.Edit
      fields := { title := "   ", status := Status.ToDo, text_editor_content := "Y" } }
    5 (by decide) (by decide)
  exact ⟨by decide, hc.1, hc.2, ha, by decide⟩

/-- The empty pattern is a substring of every string. -/
theorem strContains_empty (hay : String) : strContains hay "" = true := by
  show containsSub [] hay.toList = true
  induction hay.toList with
  | nil => rfl
  | cons c rest ih => simp [containsSub, List.isPrefixOf, ih]

/-- Filtering the views then projecting to tasks equals projecting then
filtering. -/
theorem filter_map_comm (p : Task → Bool) (l : List TaskView) :
    (l.filter (fun tv => p tv.task)).map (fun tv => tv.task)
      = (l.map (fun tv => tv.task)).filter p := by
  induction l with
  | nil => rfl
  | cons tv rest ih => cases hp : p tv.task <;> simp [hp, ih]

/-- Two successive filters test the conjunction of their predicates, first
one first. -/
theorem filter_filter_and (p q : TaskView → Bool) (l : List TaskView) :
    (l.filter p).filter q = l.filter (fun a => p a && q a) := by
  induction l with
  | nil => rfl
  | cons a rest ih => cases hp : p a <;> cases hq : q a <;> simp [hp, hq, ih]

/-- Claim C6: the visible subset is exactly the tasks that match the
optional status bucket and whose title or description contains the query
text as a case-sensitive substring; the result is a sublist of the
collection (insertion order preserved), and an empty query with no bucket
shows everything. -/
theorem filter_evaluator_spec (tr : TaskTracker) :
    (filteredTasks tr
      = (tr.tasks.map (fun tv => tv.task)).filter
          (fun t =>
            (match tr.filter.status with
              | some st => t.status == st
              | none => true)
            && (strContains t.title tr.filter.text
              || strContains t.description tr.filter.text)))
    ∧ List.Sublist (filteredTasks tr) (tr.tasks.map (fun tv => tv.task))
    ∧ (tr.filter.text = "" → tr.filter.status = none →
        filteredTasks tr = tr.tasks.map (fun tv => tv.task)) := by
  have hmain : filteredTasks tr
      = (tr.tasks.map (fun tv => tv.task)).filter
          (fun t =>
            (match tr.filter.status with
              | some st => t.status == st
              | none => true)
            && (strContains t.title tr.filter.text
              || strContains t.description tr.filter.text)) := by
    cases hst : tr.filter.status with
    | none =>
        simp only [filteredTasks, hst, Bool.true_and]
        exact filter_map_comm
          (fun t => strContains t.title tr.filter.text
            || strContains t.description tr.filter.text) tr.tasks
    | some st =>
        simp only [filteredTasks, hst, filter_filter_and]
        exact filter_map_comm
          (fun t => (t.status == st)
            && (strContains t.title tr.filter.text
              || strContains t.description tr.filter.text)) tr.tasks
  refine ⟨hmain, ?_, ?_⟩
  · rw [hmain]
    exact List.filter_sublist _
  · intro h1 h2
    rw [hmain, h2, h1]
    apply List.filter_eq_self.mpr
    intro t _
    simp [strContains_empty]

/-- Witness for C6 at the filter-composition example: query "milk" with
bucket ToDo shows exactly task A; the empty query with no bucket shows all
three tasks in insertion order. -/
theorem filter_evaluator_spec_witness :
    filteredTasks (exTracker "milk" (some Status.ToDo))
      = [exTask 1 Status.ToDo "Buy milk" "d1"]
    ∧ filteredTasks (exTracker "" none)
        = (exTracker "" none).tasks.map (fun tv => tv.task)
    ∧ (exTracker "" none).tasks.map (fun tv => tv.task)
        = [exTask 1 Status.ToDo "Buy milk" "d1",
            exTask 2 Status.Done "Buy milk" "d2",
            exTask 3 Status.ToDo "Clean" "d3"] := by
  refine ⟨by decide, ?_, by decide⟩
  exact (filter_evaluator_spec (exTracker "" none)).2.2 rfl rfl

/-- Dispatching `Modify` to a collection that holds the id chains exactly
`ToggleState` then `Update`. -/
theorem dispatchLocal_modify_snd (id now : Nat)
    (a b : Option String) (c : Option Status) (l : List TaskView)
    (h : (l.any fun tv => tv.task.id == id) = true) :
    (dispatchLocal id now (TaskMsg.Modify a b c) l).2
      = [TaskMsg.ToggleState, TaskMsg.Update] := by
  induction l with
  | nil => simp at h
  | cons tv rest ih =>
      cases hb : (tv.task.id == id) with
      | true => simp [dispatchLocal, hb, TaskView.update]
      | false =>
          rw [List.any_cons, hb, Bool.false_or] at h
          simp [dispatchLocal, hb, ih h]

/-- Dispatching `ToggleState` chains nothing. -/
theorem dispatchLocal_toggle_snd (id now : Nat) (l : List TaskView) :
    (dispatchLocal id now TaskMsg.ToggleState l).2 = [] := by
  induction l with
  | nil => rfl
  | cons tv rest ih =>
      cases hb : (tv.task.id == id) <;> simp [dispatchLocal, hb, TaskView.update, ih]

/-- Claim C4: every successful mutating operation persists synchronously —
after `add_task`, after `remove_task`, after a successful `update_task`,
and at the end of the accept-edit message chain, the storage holds exactly
the serialization of the in-memory collection. -/
theorem persistence_sync :
    (∀ (s : AppState) (id now : Nat) (title description : String),
      (addTask s id now title description).storage
        = serializeTasks (addTask s id now title description).tracker.get_tasks)
    ∧ (∀ (s : AppState) (id : Nat),
        (removeTask s id).storage
          = serializeTasks (removeTask s id).tracker.get_tasks)
    ∧ (∀ (s : AppState) (id now : Nat) (a b : Option String) (c : Option Status),
        (s.tracker.tasks.any fun tv => tv.task.id == id) = true →
          (updateTask s id now a b c).storage
            = serializeTasks (updateTask s id now a b c).tracker.get_tasks)
    ∧ (∀ (s : AppState) (newId now id : Nat) (a b : Option String) (c : Option Status),
        (s.tracker.tasks.any fun tv => tv.task.id == id) = true →
          (runGlobal 4 newId now s [TrackerMsg.TaskMessage id (TaskMsg.Modify a b c)]).storage
            = serializeTasks
                (runGlobal 4 newId now s
                  [TrackerMsg.TaskMessage id (TaskMsg.Modify a b c)]).tracker.get_tasks) := by
  refine ⟨fun s id now title description => rfl,
    fun s id => rfl, fun s id now a b c h => ?_, fun s newId now id a b c h => ?_⟩
  · simp [updateTask, h, writeTasks]
  · simp only [runGlobal, globalStep, dispatchLocal_modify_snd id now a b c _ h,
      dispatchLocal_toggle_snd, List.map, List.nil_append, List.append_nil,
      writeTasks]

/-- Witness for C4 on the example state: id 2 is present. -/
theorem persistence_sync_witness :
    (addTask exState 9 9 "t" "d").storage
      = serializeTasks (addTask exState 9 9 "t" "d").tracker.get_tasks
    ∧ (removeTask exState 2).storage
        = serializeTasks (removeTask exState 2).tracker.get_tasks
    ∧ ((exState.tracker.tasks.any fun tv => tv.task.id == 2) = true)
    ∧ (updateTask exState 2 7 (some "t") none none).storage
        = serializeTasks (updateTask exState 2 7 (some "t") none none).tracker.get_tasks
    ∧ (runGlobal 4 9 7 exState
          [TrackerMsg.TaskMessage 2 (TaskMsg.Modify (some "t") none none)]).storage
        = serializeTasks
            (runGlobal 4 9 7 exState
              [TrackerMsg.TaskMessage 2 (TaskMsg.Modify (some "t") none none)]).tracker.get_tasks := by
  exact ⟨persistence_sync.1 exState 9 9 "t" "d",
    persistence_sync.2.1 exState 2,
    by decide,
    persistence_sync.2.2.1 exState 2 7 (some "t") none none (by decide),
    persistence_sync.2.2.2 exState 9 7 2 (some "t") none none (by decide)⟩

/-- No single-task operation rewrites `created_at`. -/
theorem applyOp_created (t : Task) (op : TaskOp) :
    (t.applyOp op).created_at = t.created_at := by
  cases op with
  | opModify now a b c => exact (Task.modify_proj t now a b c).2.2.2.2.1
  | opSetTitle s => rfl
  | opSetDescription s => rfl
  | opSetStatus st => rfl
  | opTouch now => rfl

/-- A clock-monotone run keeps `created_at ≤ modified_at` from any starting
task already satisfying it whose creation time is below the clock. -/
theorem runOps_invariant (ops : List TaskOp) :
    ∀ (t : Task) (base : Nat), t.created_at ≤ base →
      t.created_at ≤ t.modified_at → clockMono base ops = true →
        (runOps t ops).created_at ≤ (runOps t ops).modified_at := by
  induction ops with
  | nil => exact fun t base _ h2 _ => h2
  | cons op rest ih =>
      intro t base h1 h2 hc
      show (runOps (t.applyOp op) rest).created_at
        ≤ (runOps (t.applyOp op) rest).modified_at
      cases op with
      | opModify now a b c =>
          simp only [clockMono, TaskOp.time, Bool.and_eq_true, decide_eq_true_eq] at hc
          refine ih (t.applyOp (TaskOp.opModify now a b c)) now ?_ ?_ hc.2
          · rw [applyOp_created]
            exact h1.trans hc.1
          · rw [applyOp_created]
            show t.created_at ≤ (t.modify now a b c).modified_at
            rw [(Task.modify_proj t now a b c).2.2.2.2.2]
            exact h1.trans hc.1
      | opSetTitle s => exact ih _ base h1 h2 hc
      | opSetDescription s => exact ih _ base h1 h2 hc
      | opSetStatus st => exact ih _ base h1 h2 hc
      | opTouch now =>
          simp only [clockMono, TaskOp.time, Bool.and_eq_true, decide_eq_true_eq] at hc
          refine ih (t.applyOp (TaskOp.opTouch now)) now ?_ ?_ hc.2
          · rw [applyOp_created]
            exact h1.trans hc.1
          · rw [applyOp_created]
            show t.created_at ≤ (t.modified now).modified_at
            exact h1.trans hc.1

/-- Clock monotonicity restricts to any front segment. -/
theorem clockMono_front (pre suf : List TaskOp) :
    ∀ base, clockMono base (pre ++ suf) = true → clockMono base pre = true := by
  induction pre with
  | nil => exact fun base _ => rfl
  | cons op rest ih =>
      intro base h
      cases op with
      | opModify now a b c =>
          simp only [List.cons_append, clockMono, TaskOp.time, Bool.and_eq_true,
            decide_eq_true_eq] at h ⊢
          exact ⟨h.1, ih now h.2⟩
      | opSetTitle s => exact ih base h
      | opSetDescription s => exact ih base h
      | opSetStatus st => exact ih base h
      | opTouch now =>
          simp only [List.cons_append, clockMono, TaskOp.time, Bool.and_eq_true,
            decide_eq_true_eq] at h ⊢
          exact ⟨h.1, ih now h.2⟩

/-- Claim C9: `Task::new` sets `created_at = modified_at = now`, and along
any clock-monotone sequence of `modify`, single-field setters and touch
operations, `modified_at ≥ created_at` holds after every front segment of
the run. -/
theorem timestamp_invariant (id now : Nat) (title description : String)
    (ops pre suf : List TaskOp)
    (hsplit : ops = pre ++ suf)
    (hc : clockMono now ops = true) :
    (Task.new id now title description).created_at = now
    ∧ (Task.new id now title description).modified_at = now
    ∧ (runOps (Task.new id now title description) pre).created_at
        ≤ (runOps (Task.new id now title description) pre).modified_at := by
  refine ⟨rfl, rfl, ?_⟩
  refine runOps_invariant pre (Task.new id now title description) now ?_ ?_ ?_
  · exact Nat.le_refl now
  · exact Nat.le_refl now
  · exact clockMono_front pre suf now (hsplit ▸ hc)

/-- Witness for C9 on a concrete clock-monotone run, checked after the
two-operation front segment. -/
theorem timestamp_invariant_witness :
    ([TaskOp.opTouch 3, TaskOp.opSetTitle "a", TaskOp.opModify 5 none none none]
        = [TaskOp.opTouch 3, TaskOp.opSetTitle "a"]
          ++ [TaskOp.opModify 5 none none none])
    ∧ clockMono 2
        [TaskOp.opTouch 3, TaskOp.opSetTitle "a", TaskOp.opModify 5 none none none]
        = true
    ∧ (Task.new 1 2 "t" "d").created_at = 2
    ∧ (Task.new 1 2 "t" "d").modified_at = 2
    ∧ (runOps (Task.new 1 2 "t" "d") [TaskOp.opTouch 3, TaskOp.opSetTitle "a"]).created_at
        ≤ (runOps (Task.new 1 2 "t" "d") [TaskOp.opTouch 3, TaskOp.opSetTitle "a"]).modified_at := by
  have h := timestamp_invariant 1 2 "t" "d"
    [TaskOp.opTouch 3, TaskOp.opSetTitle "a", TaskOp.opModify 5 none none none]
    [TaskOp.opTouch 3, TaskOp.opSetTitle "a"]
    [TaskOp.opModify 5 none none none]
    rfl (by decide)
  exact ⟨rfl, by decide, h.1, h.2.1, h.2.2⟩

end TaskTrackerApp
